import Mathlib

/-!
Verification of the money-management repository's core business logic:
the balance ledger updater, the budget evaluator, and the budget overlap
validator, shallowly embedded from the request handlers under `src/app/api`.

Monetary amounts (stored as `DECIMAL(12,2)` and manipulated as JavaScript
numbers in the handlers) are modelled as exact rationals; dates are modelled
as integers ordered like timestamps.
-/

namespace MoneyManagement

/-! ## Budget evaluator -/

/-- Spending metrics attached to a budget by the API handlers. -/
structure BudgetEval where
  amount : ℚ
  totalSpent : ℚ
  remaining : ℚ
  percentageUsed : ℚ
  status : String
deriving DecidableEq

/-- JavaScript `Math.round` on an exact rational: nearest integer, halves
rounded toward positive infinity. -/
def mathRound (x : ℚ) : ℤ := Int.floor (x + 1/2)

/-- Budget spending computation of the budget-list view, transcribed from
`src/app/api/budgets/route.ts` (GET, lines 95-111).  `txAmounts` is the list
of amounts of the owner's EXPENSE transactions matched by the budget's date
window and optional category scope (the database query supplies that list in
the source). -/
def budgetsGETEval (budgetAmount : ℚ) (txAmounts : List ℚ) : BudgetEval :=
  let totalSpent := txAmounts.foldl (fun sum amount => sum + amount) 0
  let remaining := budgetAmount - totalSpent
  let percentageUsed := if budgetAmount > 0 then totalSpent / budgetAmount * 100 else 0
  { amount := budgetAmount,
    totalSpent := totalSpent,
    remaining := remaining,
    percentageUsed := (mathRound (percentageUsed * 100) : ℚ) / 100,
    status := if remaining < 0 then "overbudget"
      else if remaining < budgetAmount * 0.1 then "warning"
      else "good" }

/-- Budget spending computation of the single-budget detail view, transcribed
from `src/app/api/budgets/[id]/route.ts` (GET, lines 74-91). -/
def budgetIdGETEval (budgetAmount : ℚ) (txAmounts : List ℚ) : BudgetEval :=
  let totalSpent := txAmounts.foldl (fun sum amount => sum + amount) 0
  let remaining := budgetAmount - totalSpent
  let percentageUsed := if budgetAmount > 0 then totalSpent / budgetAmount * 100 else 0
  { amount := budgetAmount,
    totalSpent := totalSpent,
    remaining := remaining,
    percentageUsed := (mathRound (percentageUsed * 100) : ℚ) / 100,
    status := if remaining < 0 then "overbudget"
      else if remaining < budgetAmount * 0.1 then "warning"
      else "good" }

/-- Budget spending computation of the budget summary view, transcribed from
the `/api/budgets/summary` GET handler (`src/unnamed` summary route,
lines 161-177 of the second file stored with `src/app/api/auth/register/route.ts`). -/
def budgetSummaryGETEval (budgetAmount : ℚ) (txAmounts : List ℚ) : BudgetEval :=
  let totalSpent := txAmounts.foldl (fun sum amount => sum + amount) 0
  let remaining := budgetAmount - totalSpent
  let percentageUsed := if budgetAmount > 0 then totalSpent / budgetAmount * 100 else 0
  { amount := budgetAmount,
    totalSpent := totalSpent,
    remaining := remaining,
    percentageUsed := (mathRound (percentageUsed * 100) : ℚ) / 100,
    status := if remaining < 0 then "overbudget"
      else if remaining < budgetAmount * 0.1 then "warning"
      else "good" }

/-! ## Recommendation generator -/

/-- A typed advisory message produced by the budget summary view. -/
structure Recommendation where
  type : String
  title : String
  message : String
deriving DecidableEq

/-- Recommendation pushed when some budgets have status `overbudget`
(`generateRecommendations`, first check). -/
def overbudgetRecommendation (n : Nat) : Recommendation :=
  { type := "warning",
    title := "Budget Terlampaui",
    message := "Anda telah melampaui budget di " ++ toString n
      ++ " kategori. Pertimbangkan untuk mengurangi pengeluaran atau menyesuaikan budget." }

/-- Recommendation pushed when some budgets have status `warning`
(`generateRecommendations`, second check). -/
def warningRecommendation (n : Nat) : Recommendation :=
  { type := "info",
    title := "Mendekati Batas Budget",
    message := "Budget Anda di " ++ toString n
      ++ " kategori hampir habis. Pantau pengeluaran dengan lebih ketat." }

/-- Recommendation pushed when the overall percentage used exceeds 90
(`generateRecommendations`, third check). -/
def highSpendingRecommendation : Recommendation :=
  { type := "warning",
    title := "Total Pengeluaran Tinggi",
    message := "Anda telah menggunakan lebih dari 90% dari total budget. Pertimbangkan untuk lebih berhemat." }

/-- Recommendation pushed when the overall percentage used is below 50
(`generateRecommendations`, `else if` of the third check). -/
def goodManagementRecommendation : Recommendation :=
  { type := "success",
    title := "Pengelolaan Budget Baik",
    message := "Selamat! Anda berhasil mengelola budget dengan baik. Pertimbangkan untuk menabung lebih banyak." }

/-- Recommendation pushed when there are no active budgets
(`generateRecommendations`, last check). -/
def firstBudgetRecommendation : Recommendation :=
  { type := "info",
    title := "Buat Budget Pertama",
    message := "Mulai kelola keuangan dengan membuat budget untuk kategori pengeluaran Anda." }

/-- Transcribed from `generateRecommendations` in the budget summary route
(lines 265-314): four sequential checks pushing onto one list, the third
check being a two-way `if`/`else if` on the overall percentage. -/
def generateRecommendations (budgets : List BudgetEval) (totalSpent totalBudget : ℚ) :
    List Recommendation :=
  let overbudgetBudgets := budgets.filter (fun b => b.status == "overbudget")
  let warningBudgets := budgets.filter (fun b => b.status == "warning")
  let overallPercentage := if totalBudget > 0 then totalSpent / totalBudget * 100 else 0
  (if overbudgetBudgets.length > 0 then [overbudgetRecommendation overbudgetBudgets.length] else [])
    ++ (if warningBudgets.length > 0 then [warningRecommendation warningBudgets.length] else [])
    ++ (if overallPercentage > 90 then [highSpendingRecommendation]
        else if overallPercentage < 50 then [goodManagementRecommendation] else [])
    ++ (if budgets.length == 0 then [firstBudgetRecommendation] else [])

/-! ## Budget overlap validator -/

/-- The three-disjunct date-range overlap test of the budget creation
handler's `findFirst` query (`src/app/api/budgets/route.ts`, POST,
lines 155-180): the existing budget's window is `[bStart, bEnd]` and the
requested window is `[s, e]`. -/
def overlapsRange (bStart bEnd s e : ℤ) : Prop :=
  (bStart ≤ s ∧ s ≤ bEnd) ∨ (bStart ≤ e ∧ e ≤ bEnd) ∨ (s ≤ bStart ∧ bEnd ≤ e)

instance (bStart bEnd s e : ℤ) : Decidable (overlapsRange bStart bEnd s e) := by
  unfold overlapsRange
  infer_instance

/-- C3: the budget evaluator sets `remaining = amount - totalSpent` and
assigns the status by exactly the rule `remaining < 0 → overbudget`, else
`remaining < amount * 0.1 → warning`, else `good`; in particular a budget
with amount 1000 and a single matched expense of 900 has status `good`
because the warning comparison is strict. -/
theorem budget_status_rule (budgetAmount : ℚ) (txAmounts : List ℚ) :
    ((budgetsGETEval budgetAmount txAmounts).remaining
        = budgetAmount - (budgetsGETEval budgetAmount txAmounts).totalSpent
      ∧ (budgetsGETEval budgetAmount txAmounts).status =
        (if (budgetsGETEval budgetAmount txAmounts).remaining < 0 then "overbudget"
          else if (budgetsGETEval budgetAmount txAmounts).remaining < budgetAmount * 0.1 then
            "warning"
          else "good"))
    ∧ (budgetsGETEval 1000 [900]).status = "good" :=
  ⟨⟨rfl, rfl⟩, by norm_num [budgetsGETEval]⟩

/-- C8: the budget-list view, the single-budget detail view and the budget
summary view compute identical spending metrics (totalSpent, remaining,
rounded percentageUsed and status) as functions of the budget amount and the
matched transaction amounts. -/
theorem budget_eval_call_sites_agree :
    budgetsGETEval = budgetIdGETEval ∧ budgetSummaryGETEval = budgetIdGETEval :=
  ⟨rfl, rfl⟩

/-- C5: for well-formed date ranges, the creation handler's three-disjunct
overlap test is equivalent to the standard closed-interval overlap test
`s1 ≤ e2 ∧ s2 ≤ e1`; both boundaries are inclusive. -/
theorem overlap_three_disjunct_equiv (s1 e1 s2 e2 : ℤ) (h1 : s1 ≤ e1) (h2 : s2 ≤ e2) :
    overlapsRange s1 e1 s2 e2 ↔ (s1 ≤ e2 ∧ s2 ≤ e1) := by
  unfold overlapsRange
  omega

/-- Concrete instance of the overlap equivalence: a range ending exactly where
another starts counts as overlapping. -/
theorem overlap_three_disjunct_equiv_witness :
    ((0 : ℤ) ≤ 5 ∧ (5 : ℤ) ≤ 9)
      ∧ (overlapsRange 0 5 5 9 ↔ ((0 : ℤ) ≤ 9 ∧ (5 : ℤ) ≤ 5)) :=
  ⟨⟨by decide, by decide⟩, overlap_three_disjunct_equiv 0 5 5 9 (by decide) (by decide)⟩

/-! ## Ledger data model -/

/-- A bank account row.  `initialBalance` is a ghost field recording the
balance the account was created with; no handler reads or writes it, it only
serves to state the spec's balance invariant. -/
structure BankAccount where
  id : Nat
  userId : Nat
  name : String
  type : String
  balance : ℚ
  initialBalance : ℚ
  currency : String
  description : Option String
  isActive : Bool
deriving DecidableEq

/-- A category row; `type` is the category direction, `INCOME` or `EXPENSE`. -/
structure Category where
  id : Nat
  userId : Nat
  name : String
  type : String
deriving DecidableEq

/-- A transaction row; `type` is `INCOME`, `EXPENSE` or `TRANSFER` and the
amount is stored as the positive magnitude. -/
structure Transaction where
  id : Nat
  userId : Nat
  accountId : Nat
  categoryId : Nat
  amount : ℚ
  type : String
  date : ℤ
  description : Option String
  notes : Option String
deriving DecidableEq

/-- The relational store as seen by the ledger handlers, plus fresh-id
counters standing in for the database's unique id generation. -/
structure LedgerState where
  accounts : List BankAccount
  categories : List Category
  transactions : List Transaction
  nextTxId : Nat
  nextAccountId : Nat
deriving DecidableEq

/-- Structured errors returned by the handlers. -/
inductive ApiError where
  | missingFields
  | invalidType
  | invalidAmount
  | accountNotFound
  | categoryNotFound
  | categoryTypeMismatch
  | transactionNotFound
  | hasTransactions
  | invalidInput
  | budgetNotFound
  | conflict
deriving DecidableEq

/-- The JSON body of a transaction create/update request.  A `none` field is
absent from the body; JavaScript falsiness of present values (`0` for the
amount, the empty string for the type) is handled where the handlers check
`!field`. -/
structure TransactionRequest where
  amount : Option ℚ
  type : Option String
  description : Option String
  notes : Option String
  date : Option ℤ
  accountId : Option Nat
  categoryId : Option Nat
deriving DecidableEq

/-- The handlers' required-field check
`!amount || !type || !accountId || !categoryId || !date` (an absent field,
the number `0` and the empty string are falsy). -/
def missingRequired (r : TransactionRequest) : Prop :=
  r.amount = none ∨ r.amount = some 0 ∨ r.type = none ∨ r.type = some "" ∨
    r.accountId = none ∨ r.categoryId = none ∨ r.date = none

instance (r : TransactionRequest) : Decidable (missingRequired r) := by
  unfold missingRequired
  infer_instance

/-- Valid transaction types as listed in both handlers. -/
def validTransactionTypes : List String := ["INCOME", "EXPENSE", "TRANSFER"]

/-- Prisma `bankAccount.findFirst({where: {id, userId}})`. -/
def findAccount (s : LedgerState) (uid accountId : Nat) : Option BankAccount :=
  s.accounts.find? (fun a => a.id == accountId && a.userId == uid)

/-- Prisma `category.findFirst({where: {id, userId}})`. -/
def findCategory (s : LedgerState) (uid categoryId : Nat) : Option Category :=
  s.categories.find? (fun c => c.id == categoryId && c.userId == uid)

/-- Prisma `transaction.findFirst({where: {id, userId}})`. -/
def findTransaction (s : LedgerState) (uid txId : Nat) : Option Transaction :=
  s.transactions.find? (fun t => t.id == txId && t.userId == uid)

/-- Prisma `bankAccount.update({where: {id}, data: {balance: {increment: d}}})`. -/
def credit (accounts : List BankAccount) (accountId : Nat) (d : ℚ) : List BankAccount :=
  accounts.map (fun a => if a.id = accountId then { a with balance := a.balance + d } else a)

/-- Prisma `transaction.update({where: {id}, data: {...}})`: rewrite the row
carrying the given id (row ids are unique in the store). -/
def updateTxRow (txs : List Transaction) (txId : Nat) (amount : ℚ) (type : String)
    (description notes : Option String) (date : ℤ) (accountId categoryId : Nat) :
    List Transaction :=
  match txs with
  | [] => []
  | t :: ts =>
    if t.id = txId then
      { t with
        amount := amount, type := type, description := description,
        notes := notes, date := date, accountId := accountId,
        categoryId := categoryId } :: ts
    else t :: updateTxRow ts txId amount type description notes date accountId categoryId

/-- Prisma `transaction.delete({where: {id}})`. -/
def deleteTxRow (txs : List Transaction) (txId : Nat) : List Transaction :=
  match txs with
  | [] => []
  | t :: ts => if t.id = txId then ts else t :: deleteTxRow ts txId

/-! ## Transaction handlers -/

/-- Transaction creation, transcribed from `src/app/api/transactions/route.ts`
(POST, lines 100-229).  The session's user id is the `uid` parameter; the
handler's `prisma.$transaction` block becomes the atomic construction of the
returned state. -/
def transactionsPOST (s : LedgerState) (uid : Nat) (r : TransactionRequest) :
    Except ApiError LedgerState :=
  if missingRequired r then .error .missingFields
  else match r.amount, r.type, r.accountId, r.categoryId, r.date with
  | some amount, some type, some accountId, some categoryId, some date =>
    if type ∉ validTransactionTypes then .error .invalidType
    else if amount ≤ 0 then .error .invalidAmount
    else match findAccount s uid accountId, findCategory s uid categoryId with
    | none, _ => .error .accountNotFound
    | some _, none => .error .categoryNotFound
    | some _, some category =>
      if (type = "INCOME" ∧ category.type ≠ "INCOME")
          ∨ (type = "EXPENSE" ∧ category.type ≠ "EXPENSE") then
        .error .categoryTypeMismatch
      else
        let balanceChange := if type = "INCOME" then amount else -amount
        .ok { s with
          transactions := s.transactions ++
            [{ id := s.nextTxId, userId := uid, accountId := accountId,
               categoryId := categoryId, amount := amount, type := type,
               date := date, description := r.description, notes := r.notes }],
          accounts := credit s.accounts accountId balanceChange,
          nextTxId := s.nextTxId + 1 }
  | _, _, _, _, _ => .error .missingFields

/-- Transaction update, transcribed from the transaction `[id]` route
(`src/unnamed/part_001`, PUT, lines 64-239).  Both branches of the source's
same-account/different-account conditional perform the same single reversal
on the old transaction's account, so the transcription has one reversal. -/
def transactionIdPUT (s : LedgerState) (uid txId : Nat) (r : TransactionRequest) :
    Except ApiError LedgerState :=
  match findTransaction s uid txId with
  | none => .error .transactionNotFound
  | some existingTransaction =>
    if missingRequired r then .error .missingFields
    else match r.amount, r.type, r.accountId, r.categoryId, r.date with
    | some amount, some type, some accountId, some categoryId, some date =>
      if type ∉ validTransactionTypes then .error .invalidType
      else if amount ≤ 0 then .error .invalidAmount
      else match findAccount s uid accountId, findCategory s uid categoryId with
      | none, _ => .error .accountNotFound
      | some _, none => .error .categoryNotFound
      | some _, some category =>
        if (type = "INCOME" ∧ category.type ≠ "INCOME")
            ∨ (type = "EXPENSE" ∧ category.type ≠ "EXPENSE") then
          .error .categoryTypeMismatch
        else
          let oldBalanceChange := if existingTransaction.type = "INCOME" then
              -existingTransaction.amount
            else existingTransaction.amount
          let accountsAfterReversal :=
            credit s.accounts existingTransaction.accountId oldBalanceChange
          let newBalanceChange := if type = "INCOME" then amount else -amount
          .ok { s with
            transactions := updateTxRow s.transactions txId amount type
              r.description r.notes date accountId categoryId,
            accounts := credit accountsAfterReversal accountId newBalanceChange }
    | _, _, _, _, _ => .error .missingFields

/-- Transaction delete, transcribed from the transaction `[id]` route
(`src/unnamed/part_001`, DELETE, lines 241-305). -/
def transactionIdDELETE (s : LedgerState) (uid txId : Nat) : Except ApiError LedgerState :=
  match findTransaction s uid txId with
  | none => .error .transactionNotFound
  | some existingTransaction =>
    let balanceChange := if existingTransaction.type = "INCOME" then
        -existingTransaction.amount
      else existingTransaction.amount
    .ok { s with
      accounts := credit s.accounts existingTransaction.accountId balanceChange,
      transactions := deleteTxRow s.transactions txId }

/-! ## Account handlers -/

/-- The JSON body of an account create/update request. -/
structure AccountRequest where
  name : Option String
  type : Option String
  balance : Option ℚ
  currency : Option String
  description : Option (Option String)
deriving DecidableEq

/-- Valid account types as listed in both account handlers. -/
def validAccountTypes : List String :=
  ["CHECKING", "SAVINGS", "CREDIT_CARD", "CASH", "INVESTMENT", "LOAN"]

/-- The account handlers' required-field check `!name || !type`. -/
def accountMissingRequired (r : AccountRequest) : Prop :=
  r.name = none ∨ r.name = some "" ∨ r.type = none ∨ r.type = some ""

instance (r : AccountRequest) : Decidable (accountMissingRequired r) := by
  unfold accountMissingRequired
  infer_instance

/-- Account creation, transcribed from the accounts collection route (POST,
second file stored with `src/app/api/accounts/[id]/route.ts`):
`balance ? Number(balance) : 0` seeds the initial balance. -/
def accountsPOST (s : LedgerState) (uid : Nat) (r : AccountRequest) :
    Except ApiError LedgerState :=
  if accountMissingRequired r then .error .missingFields
  else match r.name, r.type with
  | some name, some type =>
    if type ∉ validAccountTypes then .error .invalidType
    else
      let balance := match r.balance with
        | some b => b
        | none => 0
      .ok { s with
        accounts := s.accounts ++
          [{ id := s.nextAccountId, userId := uid, name := name, type := type,
             balance := balance, initialBalance := balance,
             currency := (match r.currency with
               | some c => if c = "" then "IDR" else c
               | none => "IDR"),
             description := (match r.description with
               | some (some d) => if d = "" then none else some d
               | _ => none),
             isActive := true }],
        nextAccountId := s.nextAccountId + 1 }
  | _, _ => .error .missingFields

/-- Account update, transcribed from `src/app/api/accounts/[id]/route.ts`
(PUT, lines 6-75).  `balance: balance !== undefined ? Number(balance) :
existingAccount.balance` takes the request's balance whenever the field is
present. -/
def accountIdPUT (s : LedgerState) (uid accountId : Nat) (r : AccountRequest) :
    Except ApiError LedgerState :=
  if accountMissingRequired r then .error .missingFields
  else match r.name, r.type with
  | some name, some type =>
    if type ∉ validAccountTypes then .error .invalidType
    else match s.accounts.find? (fun a => a.id == accountId && a.userId == uid) with
    | none => .error .accountNotFound
    | some existingAccount =>
      .ok { s with accounts := s.accounts.map (fun a =>
        if a.id = accountId then
          { a with
            name := name, type := type,
            balance := r.balance.getD existingAccount.balance,
            currency := (match r.currency with
              | some c => if c = "" then existingAccount.currency else c
              | none => existingAccount.currency),
            description := (match r.description with
              | some d => d
              | none => existingAccount.description) }
        else a) }
  | _, _ => .error .missingFields

/-- Account delete, transcribed from the accounts `[id]` route (DELETE,
lines 77-138): refused while transactions reference the account, otherwise a
soft delete setting `isActive := false`. -/
def accountIdDELETE (s : LedgerState) (uid accountId : Nat) :
    Except ApiError LedgerState :=
  match s.accounts.find? (fun a => a.id == accountId && a.userId == uid) with
  | none => .error .accountNotFound
  | some _ =>
    if 0 < (s.transactions.filter (fun t => t.accountId == accountId)).length then
      .error .hasTransactions
    else
      .ok { s with accounts := s.accounts.map (fun a =>
        if a.id = accountId then { a with isActive := false } else a) }

/-! ## Transaction operation sequences and the balance invariant -/

/-- A transaction mutation issued through the public interface. -/
inductive TxOp where
  | create (uid : Nat) (r : TransactionRequest)
  | update (uid txId : Nat) (r : TransactionRequest)
  | delete (uid txId : Nat)

/-- Run one transaction operation; a rejected request leaves the store
untouched (every validation failure happens before the atomic write). -/
def applyTxOp (s : LedgerState) (op : TxOp) : LedgerState :=
  match op with
  | .create uid r =>
    match transactionsPOST s uid r with
    | .ok s1 => s1
    | .error _ => s
  | .update uid txId r =>
    match transactionIdPUT s uid txId r with
    | .ok s1 => s1
    | .error _ => s
  | .delete uid txId =>
    match transactionIdDELETE s uid txId with
    | .ok s1 => s1
    | .error _ => s

/-- Run a sequence of transaction operations. -/
def applyTxOps (s : LedgerState) (ops : List TxOp) : LedgerState :=
  ops.foldl applyTxOp s

/-- Sum of the amounts of the INCOME transactions posted against `accountId`. -/
def incomeSum (txs : List Transaction) (accountId : Nat) : ℚ :=
  (txs.map (fun t =>
    if t.accountId = accountId ∧ t.type = "INCOME" then t.amount else 0)).sum

/-- Sum of the amounts of the EXPENSE transactions posted against `accountId`. -/
def expenseSum (txs : List Transaction) (accountId : Nat) : ℚ :=
  (txs.map (fun t =>
    if t.accountId = accountId ∧ t.type = "EXPENSE" then t.amount else 0)).sum

/-- Sum of the amounts of the TRANSFER transactions posted against `accountId`. -/
def transferSum (txs : List Transaction) (accountId : Nat) : ℚ :=
  (txs.map (fun t =>
    if t.accountId = accountId ∧ t.type = "TRANSFER" then t.amount else 0)).sum

/-- Net signed balance effect of the stored transactions on `accountId`: the
create handler's delta rule, income positive, everything else negative. -/
def signedSum (txs : List Transaction) (accountId : Nat) : ℚ :=
  (txs.map (fun t =>
    if t.accountId = accountId then
      (if t.type = "INCOME" then t.amount else -t.amount)
    else 0)).sum

/-- The balance invariant as the code actually maintains it: transfers are a
deduction on the source account, exactly like expenses. -/
def BalanceInvariant (s : LedgerState) : Prop :=
  ∀ a ∈ s.accounts,
    a.balance = a.initialBalance + incomeSum s.transactions a.id
      - expenseSum s.transactions a.id - transferSum s.transactions a.id

/-- The balance invariant exactly as the spec states it (no transfer term). -/
def ClaimedBalanceInvariant (s : LedgerState) : Prop :=
  ∀ a ∈ s.accounts,
    a.balance = a.initialBalance + incomeSum s.transactions a.id
      - expenseSum s.transactions a.id

/-- Store well-formedness: stored transaction types are valid enum values,
row ids are unique and below the fresh-id counter. -/
def LedgerWF (s : LedgerState) : Prop :=
  (∀ t ∈ s.transactions, t.type ∈ validTransactionTypes) ∧
  (∀ t ∈ s.transactions, t.id < s.nextTxId) ∧
  (s.transactions.map (fun t => t.id)).Nodup

/-! ## Helper lemmas about the store primitives -/

/-- Signed balance effect of one stored transaction on one account id. -/
def txEffect (t : Transaction) (i : Nat) : ℚ :=
  if t.accountId = i then (if t.type = "INCOME" then t.amount else -t.amount) else 0

theorem credit_map_eq (accounts : List BankAccount) (accountId : Nat) (d : ℚ) :
    credit accounts accountId d = accounts.map (fun a =>
      { a with balance := a.balance + (if a.id = accountId then d else 0) }) := by
  unfold credit
  apply List.map_congr_left
  intro a _
  by_cases h : a.id = accountId <;> simp [h]

theorem signedSum_cons (t : Transaction) (ts : List Transaction) (i : Nat) :
    signedSum (t :: ts) i = txEffect t i + signedSum ts i := by
  simp [signedSum, txEffect]

theorem signedSum_append (xs ys : List Transaction) (i : Nat) :
    signedSum (xs ++ ys) i = signedSum xs i + signedSum ys i := by
  simp [signedSum]

theorem signedSum_singleton (t : Transaction) (i : Nat) :
    signedSum [t] i = txEffect t i := by
  simp [signedSum, txEffect]

theorem incomeSum_cons (t : Transaction) (ts : List Transaction) (i : Nat) :
    incomeSum (t :: ts) i
      = (if t.accountId = i ∧ t.type = "INCOME" then t.amount else 0) + incomeSum ts i := by
  simp [incomeSum]

theorem expenseSum_cons (t : Transaction) (ts : List Transaction) (i : Nat) :
    expenseSum (t :: ts) i
      = (if t.accountId = i ∧ t.type = "EXPENSE" then t.amount else 0) + expenseSum ts i := by
  simp [expenseSum]

theorem transferSum_cons (t : Transaction) (ts : List Transaction) (i : Nat) :
    transferSum (t :: ts) i
      = (if t.accountId = i ∧ t.type = "TRANSFER" then t.amount else 0) + transferSum ts i := by
  simp [transferSum]

theorem signedSum_decomp (txs : List Transaction) (i : Nat)
    (h : ∀ t ∈ txs, t.type ∈ validTransactionTypes) :
    signedSum txs i = incomeSum txs i - expenseSum txs i - transferSum txs i := by
  induction txs with
  | nil => simp [signedSum, incomeSum, expenseSum, transferSum]
  | cons t ts ih =>
    have ht : t.type ∈ validTransactionTypes := h t (List.mem_cons_self t ts)
    have ih2 := ih (fun x hx => h x (List.mem_cons_of_mem t hx))
    rw [signedSum_cons, incomeSum_cons, expenseSum_cons, transferSum_cons, ih2]
    simp only [validTransactionTypes, List.mem_cons, List.not_mem_nil, or_false] at ht
    rcases ht with h1 | h1 | h1 <;>
      by_cases hi : t.accountId = i <;> simp [txEffect, h1, hi] <;> ring

theorem updateTxRow_map_id (txs : List Transaction) (txId : Nat) (amount : ℚ)
    (type : String) (description notes : Option String) (date : ℤ)
    (accountId categoryId : Nat) :
    (updateTxRow txs txId amount type description notes date accountId categoryId).map
        (fun t => t.id)
      = txs.map (fun t => t.id) := by
  induction txs with
  | nil => rfl
  | cons t ts ih => by_cases h : t.id = txId <;> simp [updateTxRow, h, ih]

theorem updateTxRow_mem (txs : List Transaction) (txId : Nat) (amount : ℚ)
    (type : String) (description notes : Option String) (date : ℤ)
    (accountId categoryId : Nat) (t1 : Transaction)
    (h : t1 ∈ updateTxRow txs txId amount type description notes date accountId categoryId) :
    t1.type = type ∨ t1 ∈ txs := by
  induction txs with
  | nil => cases h
  | cons t ts ih =>
    by_cases ht : t.id = txId
    · simp only [updateTxRow, if_pos ht, List.mem_cons] at h
      rcases h with h1 | h1
      · exact Or.inl (by rw [h1])
      · exact Or.inr (List.mem_cons_of_mem t h1)
    · simp only [updateTxRow, if_neg ht, List.mem_cons] at h
      rcases h with h1 | h1
      · exact Or.inr (by simp [h1])
      · rcases ih h1 with h2 | h2
        · exact Or.inl h2
        · exact Or.inr (List.mem_cons_of_mem t h2)

theorem signedSum_updateTxRow (txs : List Transaction) (txId : Nat) (old : Transaction)
    (amount : ℚ) (type : String) (description notes : Option String) (date : ℤ)
    (accountId categoryId i : Nat)
    (hmem : old ∈ txs) (hid : old.id = txId)
    (hnd : (txs.map (fun t => t.id)).Nodup) :
    signedSum (updateTxRow txs txId amount type description notes date accountId categoryId) i
      = signedSum txs i - txEffect old i
        + (if accountId = i then (if type = "INCOME" then amount else -amount) else 0) := by
  induction txs with
  | nil => cases hmem
  | cons t ts ih =>
    simp only [List.map_cons, List.nodup_cons] at hnd
    obtain ⟨hnotin, hndts⟩ := hnd
    by_cases h : t.id = txId
    · have hot : old = t := by
        rcases List.mem_cons.1 hmem with h1 | h1
        · exact h1
        · exfalso
          apply hnotin
          have hm : old.id ∈ List.map (fun t => t.id) ts := List.mem_map_of_mem _ h1
          rwa [hid, ← h] at hm
      subst hot
      simp only [updateTxRow, if_pos h]
      rw [signedSum_cons, signedSum_cons]
      simp only [txEffect]
      ring
    · have hot : old ≠ t := fun he => h (by rw [← he]; exact hid)
      have hmem2 : old ∈ ts := by
        rcases List.mem_cons.1 hmem with h1 | h1
        · exact absurd h1 hot
        · exact h1
      simp only [updateTxRow, if_neg h]
      rw [signedSum_cons, signedSum_cons, ih hmem2 hndts]
      ring

theorem deleteTxRow_sublist (txs : List Transaction) (txId : Nat) :
    (deleteTxRow txs txId).Sublist txs := by
  induction txs with
  | nil => simp [deleteTxRow]
  | cons t ts ih =>
    by_cases h : t.id = txId
    · simp only [deleteTxRow, if_pos h]
      exact List.sublist_cons_self t ts
    · simp only [deleteTxRow, if_neg h]
      exact ih.cons₂ t

theorem signedSum_deleteTxRow (txs : List Transaction) (txId : Nat) (old : Transaction)
    (i : Nat) (hmem : old ∈ txs) (hid : old.id = txId)
    (hnd : (txs.map (fun t => t.id)).Nodup) :
    signedSum (deleteTxRow txs txId) i = signedSum txs i - txEffect old i := by
  induction txs with
  | nil => cases hmem
  | cons t ts ih =>
    simp only [List.map_cons, List.nodup_cons] at hnd
    obtain ⟨hnotin, hndts⟩ := hnd
    by_cases h : t.id = txId
    · have hot : old = t := by
        rcases List.mem_cons.1 hmem with h1 | h1
        · exact h1
        · exfalso
          apply hnotin
          have hm : old.id ∈ List.map (fun t => t.id) ts := List.mem_map_of_mem _ h1
          rwa [hid, ← h] at hm
      subst hot
      simp only [deleteTxRow, if_pos h]
      rw [signedSum_cons]
      ring
    · have hot : old ≠ t := fun he => h (by rw [← he]; exact hid)
      have hmem2 : old ∈ ts := by
        rcases List.mem_cons.1 hmem with h1 | h1
        · exact absurd h1 hot
        · exact h1
      simp only [deleteTxRow, if_neg h]
      rw [signedSum_cons, signedSum_cons, ih hmem2 hndts]
      ring

theorem findTransaction_spec {s : LedgerState} {uid txId : Nat} {tx : Transaction}
    (h : findTransaction s uid txId = some tx) :
    tx ∈ s.transactions ∧ tx.id = txId ∧ tx.userId = uid := by
  unfold findTransaction at h
  have hp := List.find?_some h
  simp only [Bool.and_eq_true, beq_iff_eq] at hp
  exact ⟨List.mem_of_find?_eq_some h, hp.1, hp.2⟩

/-! ## Inversion lemmas: what a successful handler run implies -/

theorem transactionsPOST_ok {s : LedgerState} {uid : Nat} {r : TransactionRequest}
    {s1 : LedgerState} (h : transactionsPOST s uid r = .ok s1) :
    ∃ amount type accountId categoryId date category,
      r.amount = some amount ∧ r.type = some type ∧ r.accountId = some accountId ∧
        r.categoryId = some categoryId ∧ r.date = some date ∧
        ¬ missingRequired r ∧
        type ∈ validTransactionTypes ∧ 0 < amount ∧
        (findAccount s uid accountId).isSome ∧
        findCategory s uid categoryId = some category ∧
        ¬ ((type = "INCOME" ∧ category.type ≠ "INCOME")
            ∨ (type = "EXPENSE" ∧ category.type ≠ "EXPENSE")) ∧
        s1 = { s with
          transactions := s.transactions ++
            [{ id := s.nextTxId, userId := uid, accountId := accountId,
               categoryId := categoryId, amount := amount, type := type,
               date := date, description := r.description, notes := r.notes }],
          accounts := credit s.accounts accountId
            (if type = "INCOME" then amount else -amount),
          nextTxId := s.nextTxId + 1 } := by
  unfold transactionsPOST at h
  split at h
  · exact absurd h (by simp)
  next hmiss =>
    split at h
    case _ amount type accountId categoryId date heqa heqt heqacc heqcat heqd =>
      split at h
      · exact absurd h (by simp)
      next hvalid =>
        split at h
        · exact absurd h (by simp)
        next hpos =>
          split at h
          · exact absurd h (by simp)
          · exact absurd h (by simp)
          next account category heqfa heqfc =>
            split at h
            · exact absurd h (by simp)
            next hmismatch =>
              refine ⟨amount, type, accountId, categoryId, date, category,
                heqa, heqt, heqacc, heqcat, heqd, hmiss, not_not.1 hvalid,
                lt_of_not_le hpos, by simp [heqfa], heqfc, hmismatch, ?_⟩
              simpa using h.symm
    case _ hne => exact absurd h (by simp)

theorem transactionIdPUT_ok {s : LedgerState} {uid txId : Nat} {r : TransactionRequest}
    {s1 : LedgerState} (h : transactionIdPUT s uid txId r = .ok s1) :
    ∃ existingTransaction amount type accountId categoryId date category,
      findTransaction s uid txId = some existingTransaction ∧
        r.amount = some amount ∧ r.type = some type ∧ r.accountId = some accountId ∧
        r.categoryId = some categoryId ∧ r.date = some date ∧
        ¬ missingRequired r ∧
        type ∈ validTransactionTypes ∧ 0 < amount ∧
        (findAccount s uid accountId).isSome ∧
        findCategory s uid categoryId = some category ∧
        ¬ ((type = "INCOME" ∧ category.type ≠ "INCOME")
            ∨ (type = "EXPENSE" ∧ category.type ≠ "EXPENSE")) ∧
        s1 = { s with
          transactions := updateTxRow s.transactions txId amount type
            r.description r.notes date accountId categoryId,
          accounts := credit
            (credit s.accounts existingTransaction.accountId
              (if existingTransaction.type = "INCOME" then -existingTransaction.amount
                else existingTransaction.amount))
            accountId (if type = "INCOME" then amount else -amount) } := by
  unfold transactionIdPUT at h
  split at h
  · exact absurd h (by simp)
  next existingTransaction hfind =>
    split at h
    · exact absurd h (by simp)
    next hmiss =>
      split at h
      case _ amount type accountId categoryId date heqa heqt heqacc heqcat heqd =>
        split at h
        · exact absurd h (by simp)
        next hvalid =>
          split at h
          · exact absurd h (by simp)
          next hpos =>
            split at h
            · exact absurd h (by simp)
            · exact absurd h (by simp)
            next account category heqfa heqfc =>
              split at h
              · exact absurd h (by simp)
              next hmismatch =>
                refine ⟨existingTransaction, amount, type, accountId, categoryId, date,
                  category, hfind, heqa, heqt, heqacc, heqcat, heqd, hmiss,
                  not_not.1 hvalid, lt_of_not_le hpos, by simp [heqfa], heqfc,
                  hmismatch, ?_⟩
                simpa using h.symm
      case _ hne => exact absurd h (by simp)

theorem transactionIdDELETE_ok {s : LedgerState} {uid txId : Nat} {s1 : LedgerState}
    (h : transactionIdDELETE s uid txId = .ok s1) :
    ∃ existingTransaction,
      findTransaction s uid txId = some existingTransaction ∧
        s1 = { s with
          accounts := credit s.accounts existingTransaction.accountId
            (if existingTransaction.type = "INCOME" then -existingTransaction.amount
              else existingTransaction.amount),
          transactions := deleteTxRow s.transactions txId } := by
  unfold transactionIdDELETE at h
  split at h
  · exact absurd h (by simp)
  next existingTransaction hfind =>
    exact ⟨existingTransaction, hfind, by simpa using h.symm⟩

/-! ## The balance invariant is preserved by transaction operations -/

/-- The balance invariant phrased through the create handler's signed delta. -/
def SignedInvariant (s : LedgerState) : Prop :=
  ∀ a ∈ s.accounts, a.balance = a.initialBalance + signedSum s.transactions a.id

theorem reversal_eq_neg (t : Transaction) :
    (if t.type = "INCOME" then -t.amount else t.amount)
      = -(if t.type = "INCOME" then t.amount else -t.amount) := by
  by_cases h : t.type = "INCOME" <;> simp [h]

theorem BalanceInvariant_iff_signed {s : LedgerState}
    (hty : ∀ t ∈ s.transactions, t.type ∈ validTransactionTypes) :
    BalanceInvariant s ↔ SignedInvariant s := by
  unfold BalanceInvariant SignedInvariant
  constructor
  · intro h a ha
    rw [signedSum_decomp _ _ hty]
    have := h a ha
    linarith
  · intro h a ha
    have h2 := h a ha
    rw [signedSum_decomp _ _ hty] at h2
    linarith

theorem applyTxOp_create_ok {s : LedgerState} {uid : Nat} {r : TransactionRequest}
    {s1 : LedgerState} (hc : transactionsPOST s uid r = .ok s1) :
    applyTxOp s (.create uid r) = s1 := by
  simp [applyTxOp, hc]

theorem applyTxOp_create_err {s : LedgerState} {uid : Nat} {r : TransactionRequest}
    {e : ApiError} (hc : transactionsPOST s uid r = .error e) :
    applyTxOp s (.create uid r) = s := by
  simp [applyTxOp, hc]

theorem applyTxOp_update_ok {s : LedgerState} {uid txId : Nat} {r : TransactionRequest}
    {s1 : LedgerState} (hc : transactionIdPUT s uid txId r = .ok s1) :
    applyTxOp s (.update uid txId r) = s1 := by
  simp [applyTxOp, hc]

theorem applyTxOp_update_err {s : LedgerState} {uid txId : Nat} {r : TransactionRequest}
    {e : ApiError} (hc : transactionIdPUT s uid txId r = .error e) :
    applyTxOp s (.update uid txId r) = s := by
  simp [applyTxOp, hc]

theorem applyTxOp_delete_ok {s : LedgerState} {uid txId : Nat}
    {s1 : LedgerState} (hc : transactionIdDELETE s uid txId = .ok s1) :
    applyTxOp s (.delete uid txId) = s1 := by
  simp [applyTxOp, hc]

theorem applyTxOp_delete_err {s : LedgerState} {uid txId : Nat}
    {e : ApiError} (hc : transactionIdDELETE s uid txId = .error e) :
    applyTxOp s (.delete uid txId) = s := by
  simp [applyTxOp, hc]

theorem applyTxOp_preserves (s : LedgerState) (op : TxOp)
    (hwf : LedgerWF s) (hinv : SignedInvariant s) :
    LedgerWF (applyTxOp s op) ∧ SignedInvariant (applyTxOp s op) := by
  obtain ⟨hty, hbound, hnd⟩ := hwf
  cases op with
  | create uid r =>
    cases hc : transactionsPOST s uid r with
    | error e =>
      rw [applyTxOp_create_err hc]
      exact ⟨⟨hty, hbound, hnd⟩, hinv⟩
    | ok s1 =>
      rw [applyTxOp_create_ok hc]
      obtain ⟨amount, type, accountId, categoryId, date, category, hra, hrt, hracc,
        hrcat, hrd, hmiss, htyv, hpos, hfa, hfc, hnomis, hs1⟩ := transactionsPOST_ok hc
      subst hs1
      constructor
      · refine ⟨?_, ?_, ?_⟩
        · intro t ht
          simp only [List.mem_append, List.mem_singleton] at ht
          rcases ht with h1 | h1
          · exact hty t h1
          · rw [h1]; exact htyv
        · intro t ht
          simp only [List.mem_append, List.mem_singleton] at ht
          rcases ht with h1 | h1
          · exact Nat.lt_succ_of_lt (hbound t h1)
          · rw [h1]; exact Nat.lt_succ_self _
        · rw [List.map_append, List.nodup_append]
          refine ⟨hnd, by simp, ?_⟩
          intro x hx hx2
          simp only [List.map_cons, List.map_nil, List.mem_singleton] at hx2
          subst hx2
          obtain ⟨t, htmem, htid⟩ := List.mem_map.1 hx
          exact absurd (htid ▸ hbound t htmem) (lt_irrefl _)
      · intro a1 ha1
        rw [credit_map_eq] at ha1
        obtain ⟨a, hamem, rfl⟩ := List.mem_map.1 ha1
        have hba := hinv a hamem
        show a.balance + (if a.id = accountId then
            (if type = "INCOME" then amount else -amount) else 0)
          = a.initialBalance + signedSum (s.transactions ++
              [{ id := s.nextTxId, userId := uid, accountId := accountId,
                 categoryId := categoryId, amount := amount, type := type,
                 date := date, description := r.description, notes := r.notes }]) a.id
        rw [signedSum_append, signedSum_singleton]
        by_cases hid : a.id = accountId
        · rw [hid] at hba ⊢
          simp only [txEffect, if_pos rfl, hba]
          ring
        · have hid2 : ¬ (accountId = a.id) := fun he => hid he.symm
          simp only [txEffect, if_neg hid, if_neg hid2, hba]
          ring
  | update uid txId r =>
    cases hc : transactionIdPUT s uid txId r with
    | error e =>
      rw [applyTxOp_update_err hc]
      exact ⟨⟨hty, hbound, hnd⟩, hinv⟩
    | ok s1 =>
      rw [applyTxOp_update_ok hc]
      obtain ⟨old, amount, type, accountId, categoryId, date, category, hfind, hra,
        hrt, hracc, hrcat, hrd, hmiss, htyv, hpos, hfa, hfc, hnomis, hs1⟩ :=
        transactionIdPUT_ok hc
      obtain ⟨holdmem, holdid, holduid⟩ := findTransaction_spec hfind
      subst hs1
      constructor
      · refine ⟨?_, ?_, ?_⟩
        · intro t ht
          rcases updateTxRow_mem _ _ _ _ _ _ _ _ _ t ht with h1 | h1
          · rw [h1]; exact htyv
          · exact hty t h1
        · intro t ht
          have hmm : t.id ∈ (updateTxRow s.transactions txId amount type
              r.description r.notes date accountId categoryId).map (fun t => t.id) :=
            List.mem_map_of_mem _ ht
          rw [updateTxRow_map_id] at hmm
          obtain ⟨t2, ht2, hte⟩ := List.mem_map.1 hmm
          rw [← hte]
          exact hbound t2 ht2
        · rw [updateTxRow_map_id]
          exact hnd
      · intro a1 ha1
        rw [credit_map_eq, credit_map_eq, List.map_map] at ha1
        obtain ⟨a, hamem, rfl⟩ := List.mem_map.1 ha1
        have hba := hinv a hamem
        show a.balance
            + (if a.id = old.accountId then
                (if old.type = "INCOME" then -old.amount else old.amount) else 0)
            + (if a.id = accountId then
                (if type = "INCOME" then amount else -amount) else 0)
          = a.initialBalance + signedSum (updateTxRow s.transactions txId amount type
              r.description r.notes date accountId categoryId) a.id
        rw [signedSum_updateTxRow s.transactions txId old amount type r.description
          r.notes date accountId categoryId a.id holdmem holdid hnd]
        rw [reversal_eq_neg, hba]
        simp only [txEffect]
        by_cases h1 : old.accountId = a.id
        · by_cases h2 : accountId = a.id
          · simp only [if_pos h1, if_pos h1.symm, if_pos h2, if_pos h2.symm]
            ring
          · simp only [if_pos h1, if_pos h1.symm, if_neg h2,
              if_neg (Ne.symm h2)]
            ring
        · by_cases h2 : accountId = a.id
          · simp only [if_neg h1, if_neg (Ne.symm h1), if_pos h2, if_pos h2.symm]
            ring
          · simp only [if_neg h1, if_neg (Ne.symm h1), if_neg h2,
              if_neg (Ne.symm h2)]
            ring
  | delete uid txId =>
    cases hc : transactionIdDELETE s uid txId with
    | error e =>
      rw [applyTxOp_delete_err hc]
      exact ⟨⟨hty, hbound, hnd⟩, hinv⟩
    | ok s1 =>
      rw [applyTxOp_delete_ok hc]
      obtain ⟨old, hfind, hs1⟩ := transactionIdDELETE_ok hc
      obtain ⟨holdmem, holdid, holduid⟩ := findTransaction_spec hfind
      subst hs1
      constructor
      · refine ⟨?_, ?_, ?_⟩
        · intro t ht
          exact hty t ((deleteTxRow_sublist s.transactions txId).subset ht)
        · intro t ht
          exact hbound t ((deleteTxRow_sublist s.transactions txId).subset ht)
        · exact hnd.sublist ((deleteTxRow_sublist s.transactions txId).map _)
      · intro a1 ha1
        rw [credit_map_eq] at ha1
        obtain ⟨a, hamem, rfl⟩ := List.mem_map.1 ha1
        have hba := hinv a hamem
        show a.balance + (if a.id = old.accountId then
            (if old.type = "INCOME" then -old.amount else old.amount) else 0)
          = a.initialBalance + signedSum (deleteTxRow s.transactions txId) a.id
        rw [signedSum_deleteTxRow s.transactions txId old a.id holdmem holdid hnd]
        rw [reversal_eq_neg, hba]
        simp only [txEffect]
        by_cases h1 : old.accountId = a.id
        · simp only [if_pos h1, if_pos h1.symm]
          ring
        · simp only [if_neg h1, if_neg (Ne.symm h1)]
          ring

theorem applyTxOps_preserves (s : LedgerState) (ops : List TxOp)
    (hwf : LedgerWF s) (hinv : SignedInvariant s) :
    LedgerWF (applyTxOps s ops) ∧ SignedInvariant (applyTxOps s ops) := by
  induction ops generalizing s with
  | nil => exact ⟨hwf, hinv⟩
  | cons op ops ih =>
    have h1 := applyTxOp_preserves s op hwf hinv
    exact ih (applyTxOp s op) h1.1 h1.2

/-! ## C1: the balance invariant -/

/-- C1 (amended): starting from any well-formed store satisfying the balance
invariant, every sequence of transaction create, update and delete operations
preserves it: each account's cached balance equals its initial balance plus
the sum of its INCOME transaction amounts minus the sum of its EXPENSE
transaction amounts minus the sum of its TRANSFER transaction amounts (the
handlers debit TRANSFER transactions from the source account exactly like
EXPENSE ones). -/
theorem balance_invariant_preserved (s : LedgerState) (ops : List TxOp)
    (hwf : LedgerWF s) (hinv : BalanceInvariant s) :
    BalanceInvariant (applyTxOps s ops) := by
  have h0 : SignedInvariant s := (BalanceInvariant_iff_signed hwf.1).1 hinv
  have h := applyTxOps_preserves s ops hwf h0
  exact (BalanceInvariant_iff_signed h.1.1).2 h.2

/-- One-account, one-category store used for the concrete instances. -/
def cexAccount : BankAccount :=
  { id := 1, userId := 1, name := "Main", type := "CHECKING", balance := 100,
    initialBalance := 100, currency := "IDR", description := none, isActive := true }

/-- Concrete store: one account with balance 100, one expense category, no
transactions. -/
def cexState : LedgerState :=
  { accounts := [cexAccount],
    categories := [{ id := 7, userId := 1, name := "Other Expenses", type := "EXPENSE" }],
    transactions := [],
    nextTxId := 1,
    nextAccountId := 2 }

/-- A valid TRANSFER creation request against the concrete store. -/
def transferRequest : TransactionRequest :=
  { amount := some 5, type := some "TRANSFER", description := none, notes := none,
    date := some 0, accountId := some 1, categoryId := some 7 }

theorem cexState_wf : LedgerWF cexState := by
  refine ⟨?_, ?_, ?_⟩ <;> simp [cexState, LedgerWF]

theorem cexState_balanced : BalanceInvariant cexState := by
  intro a ha
  simp only [cexState, List.mem_singleton] at ha
  subst ha
  simp [cexState, cexAccount, incomeSum, expenseSum, transferSum]

/-- The store reached from `cexState` by creating one TRANSFER of 5. -/
def cexFinalState : LedgerState :=
  { accounts := [{ cexAccount with balance := 95 }],
    categories := cexState.categories,
    transactions := [{
      id := 1, userId := 1, accountId := 1, categoryId := 7,
      amount := 5, type := "TRANSFER", date := 0, description := none, notes := none }],
    nextTxId := 2,
    nextAccountId := 2 }

theorem cex_run :
    applyTxOps cexState [TxOp.create 1 transferRequest] = cexFinalState := by
  simp [applyTxOps, applyTxOp, transactionsPOST, cexState, transferRequest,
    missingRequired, findAccount, findCategory, credit, validTransactionTypes,
    List.find?, cexFinalState, cexAccount]
  norm_num

/-- C1 counterexample: the claim's formula (initial balance plus income minus
expense, with no transfer term) holds in the concrete store but fails after a
single TRANSFER creation, which the create handler debits from the source
account. -/
theorem balance_invariant_as_stated_counterexample :
    LedgerWF cexState ∧ ClaimedBalanceInvariant cexState ∧
      ¬ ClaimedBalanceInvariant (applyTxOps cexState [TxOp.create 1 transferRequest]) := by
  refine ⟨cexState_wf, ?_, ?_⟩
  · intro a ha
    simp only [cexState, List.mem_singleton] at ha
    subst ha
    simp [cexState, cexAccount, incomeSum, expenseSum]
  · intro h
    rw [cex_run] at h
    have h2 := h { cexAccount with balance := 95 } (by simp [cexFinalState])
    simp [cexAccount, cexFinalState, incomeSum, expenseSum] at h2

/-- The amended invariant does hold on the same concrete run. -/
theorem balance_invariant_preserved_witness :
    LedgerWF cexState ∧ BalanceInvariant cexState ∧
      BalanceInvariant (applyTxOps cexState [TxOp.create 1 transferRequest]) :=
  ⟨cexState_wf, cexState_balanced,
    balance_invariant_preserved cexState [TxOp.create 1 transferRequest]
      cexState_wf cexState_balanced⟩

/-! ## C2: update reverses the old delta, then applies the new one -/

theorem credit_credit_cancel (accounts : List BankAccount) (i : Nat) (d e : ℚ)
    (h : d + e = 0) :
    (credit (credit accounts i d) i e).map (fun a => a.balance)
      = accounts.map (fun a => a.balance) := by
  rw [credit_map_eq, credit_map_eq, List.map_map, List.map_map]
  apply List.map_congr_left
  intro a _
  by_cases hh : a.id = i <;> simp [hh]
  linarith

/-- C2: a transaction update that passes validation first applies the
reversal delta (minus the old amount for INCOME, plus it otherwise) to the
OLD transaction's account — even when the account reference changed — and
then the new delta (plus the new amount for INCOME, minus it otherwise) to
the NEW account; in particular an update that changes no field leaves every
account balance unchanged. -/
theorem update_reverses_then_applies (s : LedgerState) (uid txId : Nat)
    (r : TransactionRequest) (s1 : LedgerState) (old : Transaction)
    (amount : ℚ) (type : String) (accountId : Nat)
    (hfind : findTransaction s uid txId = some old)
    (hamt : r.amount = some amount) (htype : r.type = some type)
    (hacc : r.accountId = some accountId)
    (hok : transactionIdPUT s uid txId r = .ok s1) :
    s1.accounts
        = credit (credit s.accounts old.accountId
            (if old.type = "INCOME" then -old.amount else old.amount))
          accountId (if type = "INCOME" then amount else -amount)
      ∧ (amount = old.amount → type = old.type → accountId = old.accountId →
          s1.accounts.map (fun a => a.balance)
            = s.accounts.map (fun a => a.balance)) := by
  obtain ⟨old2, amount2, type2, accountId2, categoryId2, date2, category2, hfind2,
    hra, hrt, hracc, hrcat, hrd, hmiss, htyv, hpos, hfa, hfc, hnomis, hs1⟩ :=
    transactionIdPUT_ok hok
  rw [hfind] at hfind2
  rw [hamt] at hra
  rw [htype] at hrt
  rw [hacc] at hracc
  obtain rfl : old = old2 := Option.some.injEq _ _ ▸ hfind2
  obtain rfl : amount = amount2 := Option.some.injEq _ _ ▸ hra
  obtain rfl : type = type2 := Option.some.injEq _ _ ▸ hrt
  obtain rfl : accountId = accountId2 := Option.some.injEq _ _ ▸ hracc
  subst hs1
  refine ⟨rfl, ?_⟩
  intro h1 h2 h3
  subst h1
  subst h2
  subst h3
  exact credit_credit_cancel s.accounts old.accountId _ _
    (by rw [reversal_eq_neg]; ring)

/-- The concrete transaction row used by the update instances. -/
def c2Tx : Transaction :=
  { id := 1, userId := 1, accountId := 1, categoryId := 7, amount := 30,
    type := "EXPENSE", date := 0, description := none, notes := none }

/-- Store with one account (balance 70) and one EXPENSE transaction of 30. -/
def c2State : LedgerState :=
  { accounts := [{ cexAccount with balance := 70 }],
    categories := [{ id := 7, userId := 1, name := "Other Expenses", type := "EXPENSE" }],
    transactions := [c2Tx],
    nextTxId := 2,
    nextAccountId := 2 }

/-- A no-op update request: same amount, type, account and category. -/
def c2Request : TransactionRequest :=
  { amount := some 30, type := some "EXPENSE", description := none, notes := none,
    date := some 0, accountId := some 1, categoryId := some 7 }

theorem c2_run : transactionIdPUT c2State 1 1 c2Request = .ok c2State := by
  simp [transactionIdPUT, c2State, c2Request, c2Tx, cexAccount, findTransaction,
    findAccount, findCategory, missingRequired, validTransactionTypes, credit,
    updateTxRow, List.find?]

/-- Concrete instance of the update-reversal theorem on a no-op update. -/
theorem update_reverses_then_applies_witness :
    findTransaction c2State 1 1 = some c2Tx
      ∧ transactionIdPUT c2State 1 1 c2Request = .ok c2State
      ∧ (c2State.accounts
            = credit (credit c2State.accounts c2Tx.accountId
                (if c2Tx.type = "INCOME" then -c2Tx.amount else c2Tx.amount))
              1 (if "EXPENSE" = "INCOME" then 30 else -(30 : ℚ))
          ∧ ((30 : ℚ) = c2Tx.amount → "EXPENSE" = c2Tx.type → 1 = c2Tx.accountId →
              c2State.accounts.map (fun a => a.balance)
                = c2State.accounts.map (fun a => a.balance))) := by
  have hfind : findTransaction c2State 1 1 = some c2Tx := by
    simp [findTransaction, c2State, c2Tx, List.find?]
  exact ⟨hfind, c2_run,
    update_reverses_then_applies c2State 1 1 c2Request c2State c2Tx 30 "EXPENSE" 1
      hfind rfl rfl rfl c2_run⟩

/-! ## C6: which operations can change an account balance -/

theorem accountIdPUT_ok {s : LedgerState} {uid accountId : Nat} {r : AccountRequest}
    {s1 : LedgerState} (h : accountIdPUT s uid accountId r = .ok s1) :
    ∃ name type existingAccount,
      r.name = some name ∧ r.type = some type ∧
      ¬ accountMissingRequired r ∧ type ∈ validAccountTypes ∧
      s.accounts.find? (fun a => a.id == accountId && a.userId == uid)
        = some existingAccount ∧
      s1 = { s with accounts := s.accounts.map (fun a =>
        if a.id = accountId then
          { a with
            name := name, type := type,
            balance := r.balance.getD existingAccount.balance,
            currency := (match r.currency with
              | some c => if c = "" then existingAccount.currency else c
              | none => existingAccount.currency),
            description := (match r.description with
              | some d => d
              | none => existingAccount.description) }
        else a) } := by
  unfold accountIdPUT at h
  split at h
  · exact absurd h (by simp)
  next hmiss =>
    split at h
    case _ name type heqn heqt =>
      split at h
      · exact absurd h (by simp)
      next hvalid =>
        split at h
        · exact absurd h (by simp)
        next existingAccount heqf =>
          exact ⟨name, type, existingAccount, heqn, heqt, hmiss, not_not.1 hvalid,
            heqf, by simpa using h.symm⟩
    case _ hne => exact absurd h (by simp)

/-- An account update request carrying an explicit balance. -/
def c6Request : AccountRequest :=
  { name := some "Main", type := some "CHECKING", balance := some 7,
    currency := none, description := none }

/-- The store after the balance-setting account update. -/
def c6After : LedgerState :=
  { cexState with accounts := [{ cexAccount with balance := 7 }] }

/-- C6 counterexample: the account update operation sets the cached balance
directly from the request body — the balance moves from 100 to 7 with no
transaction mutation involved. -/
theorem account_update_sets_balance_counterexample :
    accountIdPUT cexState 1 1 c6Request = .ok c6After
      ∧ cexState.accounts.map (fun a => a.balance) = [100]
      ∧ c6After.accounts.map (fun a => a.balance) = [7] := by
  refine ⟨?_, ?_, ?_⟩ <;>
    simp [accountIdPUT, cexState, cexAccount, c6Request, c6After,
      accountMissingRequired, validAccountTypes, List.find?]

/-- C6 (amended): the account update operation overwrites the stored balance
with the request's balance whenever the field is present and preserves every
balance when it is absent; the account soft-delete operation never changes a
balance.  (Transaction create/update/delete and account creation remain the
other balance-affecting operations.) -/
theorem account_update_balance_semantics (s : LedgerState) (uid accountId : Nat)
    (r : AccountRequest) (s1 : LedgerState) (existingAccount : BankAccount)
    (hnd : (s.accounts.map (fun a => a.id)).Nodup)
    (hfind : s.accounts.find? (fun a => a.id == accountId && a.userId == uid)
      = some existingAccount)
    (hok : accountIdPUT s uid accountId r = .ok s1) :
    (∀ b, r.balance = some b →
        s1.accounts.map (fun a => a.balance)
          = s.accounts.map (fun a => if a.id = accountId then b else a.balance))
      ∧ (r.balance = none →
          s1.accounts.map (fun a => a.balance) = s.accounts.map (fun a => a.balance))
      ∧ (∀ s2, accountIdDELETE s uid accountId = .ok s2 →
          s2.accounts.map (fun a => a.balance) = s.accounts.map (fun a => a.balance)) := by
  obtain ⟨name, type, existing2, heqn, heqt, hmiss, hvalid, hfind2, hs1⟩ :=
    accountIdPUT_ok hok
  rw [hfind] at hfind2
  obtain rfl : existingAccount = existing2 := Option.some.injEq _ _ ▸ hfind2
  subst hs1
  have hexmem : existingAccount ∈ s.accounts := List.mem_of_find?_eq_some hfind
  have hexid : existingAccount.id = accountId := by
    have hp := List.find?_some hfind
    simp only [Bool.and_eq_true, beq_iff_eq] at hp
    exact hp.1
  refine ⟨?_, ?_, ?_⟩
  · intro b hb
    rw [List.map_map]
    apply List.map_congr_left
    intro a _
    by_cases hh : a.id = accountId <;> simp [hh, hb]
  · intro hb
    rw [List.map_map]
    apply List.map_congr_left
    intro a ha
    by_cases hh : a.id = accountId
    · have : a = existingAccount :=
        List.inj_on_of_nodup_map hnd ha hexmem (by rw [hh, hexid])
      subst this
      simp [hh, hb]
    · simp [hh]
  · intro s2 h2
    unfold accountIdDELETE at h2
    simp only [hfind] at h2
    split at h2
    · exact absurd h2 (by simp)
    · have hs2 : s2 = { s with accounts := s.accounts.map (fun a =>
          if a.id = accountId then { a with isActive := false } else a) } := by
        simpa using h2.symm
      subst hs2
      rw [List.map_map]
      apply List.map_congr_left
      intro a _
      by_cases hh : a.id = accountId <;> simp [hh]

/-- Concrete instance of the amended balance-semantics theorem. -/
theorem account_update_balance_semantics_witness :
    (cexState.accounts.map (fun a => a.id)).Nodup
      ∧ cexState.accounts.find? (fun a => a.id == 1 && a.userId == 1) = some cexAccount
      ∧ accountIdPUT cexState 1 1 c6Request = .ok c6After
      ∧ ((∀ b, c6Request.balance = some b →
            c6After.accounts.map (fun a => a.balance)
              = cexState.accounts.map (fun a => if a.id = 1 then b else a.balance))
          ∧ (c6Request.balance = none →
              c6After.accounts.map (fun a => a.balance)
                = cexState.accounts.map (fun a => a.balance))
          ∧ (∀ s2, accountIdDELETE cexState 1 1 = .ok s2 →
              s2.accounts.map (fun a => a.balance)
                = cexState.accounts.map (fun a => a.balance))) := by
  have hnd : (cexState.accounts.map (fun a => a.id)).Nodup := by
    simp [cexState]
  have hfind : cexState.accounts.find? (fun a => a.id == 1 && a.userId == 1)
      = some cexAccount := by
    simp [cexState, cexAccount, List.find?]
  have hok : accountIdPUT cexState 1 1 c6Request = .ok c6After := by
    simp [accountIdPUT, cexState, cexAccount, c6Request, c6After,
      accountMissingRequired, validAccountTypes, List.find?]
  exact ⟨hnd, hfind, hok,
    account_update_balance_semantics cexState 1 1 c6Request c6After cexAccount
      hnd hfind hok⟩

/-! ## C7: validation failures are detected before any mutation -/

/-- C7: a transaction create or update that succeeds passed every validation
(fields present, positive amount, valid type, account and category found for
the requesting owner, category direction matching the type for
INCOME/EXPENSE); a rejected create, update or delete returns an error and the
store is unchanged — in particular a category/type mismatch writes no row and
alters no balance. -/
theorem validation_before_mutation :
    (∀ (s : LedgerState) (uid : Nat) (r : TransactionRequest) (s1 : LedgerState),
        transactionsPOST s uid r = .ok s1 →
        ∃ amount type accountId categoryId category,
          r.amount = some amount ∧ 0 < amount ∧
          r.type = some type ∧ type ∈ validTransactionTypes ∧
          r.accountId = some accountId ∧ (findAccount s uid accountId).isSome ∧
          r.categoryId = some categoryId ∧
          findCategory s uid categoryId = some category ∧
          ¬ ((type = "INCOME" ∧ category.type ≠ "INCOME")
              ∨ (type = "EXPENSE" ∧ category.type ≠ "EXPENSE")))
      ∧ (∀ (s : LedgerState) (uid txId : Nat) (r : TransactionRequest) (s1 : LedgerState),
          transactionIdPUT s uid txId r = .ok s1 →
          ∃ amount type accountId categoryId category,
            r.amount = some amount ∧ 0 < amount ∧
            r.type = some type ∧ type ∈ validTransactionTypes ∧
            r.accountId = some accountId ∧ (findAccount s uid accountId).isSome ∧
            r.categoryId = some categoryId ∧
            findCategory s uid categoryId = some category ∧
            ¬ ((type = "INCOME" ∧ category.type ≠ "INCOME")
                ∨ (type = "EXPENSE" ∧ category.type ≠ "EXPENSE")))
      ∧ (∀ (s : LedgerState) (uid : Nat) (r : TransactionRequest) (e : ApiError),
          transactionsPOST s uid r = .error e → applyTxOp s (.create uid r) = s)
      ∧ (∀ (s : LedgerState) (uid txId : Nat) (r : TransactionRequest) (e : ApiError),
          transactionIdPUT s uid txId r = .error e → applyTxOp s (.update uid txId r) = s)
      ∧ (∀ (s : LedgerState) (uid txId : Nat) (e : ApiError),
          transactionIdDELETE s uid txId = .error e → applyTxOp s (.delete uid txId) = s) := by
  refine ⟨?_, ?_, ?_, ?_, ?_⟩
  · intro s uid r s1 h
    obtain ⟨amount, type, accountId, categoryId, date, category, hra, hrt, hracc,
      hrcat, hrd, hmiss, htyv, hpos, hfa, hfc, hnomis, hs1⟩ := transactionsPOST_ok h
    exact ⟨amount, type, accountId, categoryId, category, hra, hpos, hrt, htyv,
      hracc, hfa, hrcat, hfc, hnomis⟩
  · intro s uid txId r s1 h
    obtain ⟨old, amount, type, accountId, categoryId, date, category, hfind, hra,
      hrt, hracc, hrcat, hrd, hmiss, htyv, hpos, hfa, hfc, hnomis, hs1⟩ :=
      transactionIdPUT_ok h
    exact ⟨amount, type, accountId, categoryId, category, hra, hpos, hrt, htyv,
      hracc, hfa, hrcat, hfc, hnomis⟩
  · intro s uid r e h
    exact applyTxOp_create_err h
  · intro s uid txId r e h
    exact applyTxOp_update_err h
  · intro s uid txId e h
    exact applyTxOp_delete_err h

/-- An INCOME creation request against an EXPENSE category. -/
def mismatchRequest : TransactionRequest :=
  { amount := some 5, type := some "INCOME", description := none, notes := none,
    date := some 0, accountId := some 1, categoryId := some 7 }

/-- Concrete instances of the rejection clauses: a category/type mismatch and
a missing transaction are rejected and leave the store untouched. -/
theorem validation_before_mutation_witness :
    transactionsPOST cexState 1 mismatchRequest = .error .categoryTypeMismatch
      ∧ applyTxOp cexState (.create 1 mismatchRequest) = cexState
      ∧ transactionIdPUT cexState 1 99 mismatchRequest = .error .transactionNotFound
      ∧ applyTxOp cexState (.update 1 99 mismatchRequest) = cexState := by
  have h1 : transactionsPOST cexState 1 mismatchRequest = .error .categoryTypeMismatch := by
    simp [transactionsPOST, cexState, cexAccount, mismatchRequest, missingRequired,
      findAccount, findCategory, validTransactionTypes, List.find?]
  have h2 : transactionIdPUT cexState 1 99 mismatchRequest = .error .transactionNotFound := by
    simp [transactionIdPUT, findTransaction, cexState, List.find?]
  exact ⟨h1, validation_before_mutation.2.2.1 cexState 1 mismatchRequest _ h1,
    h2, validation_before_mutation.2.2.2.1 cexState 1 99 mismatchRequest _ h2⟩

/-! ## C10: TRANSFER skips the category-direction check -/

/-- C10: a create or update request with type TRANSFER never reaches the
category-direction check: it succeeds with a category of either direction
(once amount, ownership and existence checks pass), and the source account is
debited by the amount exactly as for an EXPENSE. -/
theorem transfer_skips_category_check (s : LedgerState) (uid : Nat)
    (r : TransactionRequest) (amount : ℚ) (accountId categoryId : Nat) (date : ℤ)
    (category : Category)
    (hamt : r.amount = some amount) (hpos : 0 < amount)
    (htype : r.type = some "TRANSFER")
    (hacc : r.accountId = some accountId) (hcat : r.categoryId = some categoryId)
    (hdate : r.date = some date)
    (hfa : (findAccount s uid accountId).isSome)
    (hfc : findCategory s uid categoryId = some category) :
    transactionsPOST s uid r = .ok { s with
        transactions := s.transactions ++
          [{ id := s.nextTxId, userId := uid, accountId := accountId,
             categoryId := categoryId, amount := amount, type := "TRANSFER",
             date := date, description := r.description, notes := r.notes }],
        accounts := credit s.accounts accountId (-amount),
        nextTxId := s.nextTxId + 1 }
      ∧ (∀ txId old, findTransaction s uid txId = some old →
          transactionIdPUT s uid txId r = .ok { s with
            transactions := updateTxRow s.transactions txId amount "TRANSFER"
              r.description r.notes date accountId categoryId,
            accounts := credit (credit s.accounts old.accountId
                (if old.type = "INCOME" then -old.amount else old.amount))
              accountId (-amount) }) := by
  have hmiss : ¬ missingRequired r := by
    simp [missingRequired, hamt, htype, hacc, hcat, hdate]
    exact ne_of_gt hpos
  obtain ⟨account, hfa2⟩ := Option.isSome_iff_exists.1 hfa
  constructor
  · simp [transactionsPOST, if_neg hmiss, hamt, htype, hacc, hcat, hdate, hfa2,
      hfc, validTransactionTypes, not_le.2 hpos]
  · intro txId old hfind
    simp [transactionIdPUT, hfind, if_neg hmiss, hamt, htype, hacc, hcat, hdate,
      hfa2, hfc, validTransactionTypes, not_le.2 hpos]

/-- Store with an INCOME category: a TRANSFER succeeds against it. -/
def c10State : LedgerState :=
  { cexState with categories := [{ id := 7, userId := 1, name := "Salary", type := "INCOME" }] }

/-- The INCOME-category store with an existing EXPENSE transaction, for the
update path. -/
def c10UpdState : LedgerState :=
  { c10State with transactions := [c2Tx], nextTxId := 2 }

/-- Concrete instances of both clauses: a TRANSFER of 5 is accepted against
an INCOME-direction category — both on creation and on update of an existing
transaction — and each path debits the destination-side source account by 5. -/
theorem transfer_skips_category_check_witness :
    transferRequest.amount = some 5 ∧ (0 : ℚ) < 5
      ∧ transferRequest.type = some "TRANSFER"
      ∧ (findAccount c10State 1 1).isSome
      ∧ findCategory c10State 1 7
          = some { id := 7, userId := 1, name := "Salary", type := "INCOME" }
      ∧ transactionsPOST c10State 1 transferRequest = .ok { c10State with
          transactions := c10State.transactions ++
            [{ id := c10State.nextTxId, userId := 1, accountId := 1,
               categoryId := 7, amount := 5, type := "TRANSFER",
               date := 0, description := transferRequest.description,
               notes := transferRequest.notes }],
          accounts := credit c10State.accounts 1 (-5),
          nextTxId := c10State.nextTxId + 1 }
      ∧ findTransaction c10UpdState 1 1 = some c2Tx
      ∧ transactionIdPUT c10UpdState 1 1 transferRequest = .ok { c10UpdState with
          transactions := updateTxRow c10UpdState.transactions 1 5 "TRANSFER"
            transferRequest.description transferRequest.notes 0 1 7,
          accounts := credit (credit c10UpdState.accounts c2Tx.accountId
              (if c2Tx.type = "INCOME" then -c2Tx.amount else c2Tx.amount))
            1 (-5) } := by
  have hfa : (findAccount c10State 1 1).isSome := by
    simp [findAccount, c10State, cexState, cexAccount, List.find?]
  have hfc : findCategory c10State 1 7
      = some { id := 7, userId := 1, name := "Salary", type := "INCOME" } := by
    simp [findCategory, c10State, cexState, List.find?]
  have hfa2 : (findAccount c10UpdState 1 1).isSome := by
    simp [findAccount, c10UpdState, c10State, cexState, cexAccount, List.find?]
  have hfc2 : findCategory c10UpdState 1 7
      = some { id := 7, userId := 1, name := "Salary", type := "INCOME" } := by
    simp [findCategory, c10UpdState, c10State, cexState, List.find?]
  have hfind : findTransaction c10UpdState 1 1 = some c2Tx := by
    simp [findTransaction, c10UpdState, c10State, cexState, c2Tx, List.find?]
  exact ⟨rfl, by norm_num, rfl, hfa, hfc,
    (transfer_skips_category_check c10State 1 transferRequest 5 1 7 0
      { id := 7, userId := 1, name := "Salary", type := "INCOME" }
      rfl (by norm_num) rfl rfl rfl rfl hfa hfc).1,
    hfind,
    (transfer_skips_category_check c10UpdState 1 transferRequest 5 1 7 0
      { id := 7, userId := 1, name := "Salary", type := "INCOME" }
      rfl (by norm_num) rfl rfl rfl rfl hfa2 hfc2).2 1 c2Tx hfind⟩

/-! ## Budget data model and handlers -/

/-- A budget row; `categoryId = none` means the budget spans all categories. -/
structure Budget where
  id : Nat
  userId : Nat
  name : String
  amount : ℚ
  period : String
  categoryId : Option Nat
  startDate : ℤ
  endDate : ℤ
deriving DecidableEq

/-- The store as seen by the budget handlers. -/
structure BudgetState where
  budgets : List Budget
  categories : List Category
  nextBudgetId : Nat
deriving DecidableEq

/-- Body of a budget creation request (after JSON parsing). -/
structure BudgetRequest where
  name : String
  amount : ℚ
  period : String
  categoryId : Option Nat
  startDate : ℤ
  endDate : ℤ
deriving DecidableEq

/-- Valid budget periods per the zod schema. -/
def validPeriods : List String := ["WEEKLY", "MONTHLY", "QUARTERLY", "YEARLY"]

/-- The zod `BudgetSchema` constraints: non-empty name, positive amount,
period in the enum. -/
def budgetSchemaValid (r : BudgetRequest) : Prop :=
  r.name ≠ "" ∧ 0 < r.amount ∧ r.period ∈ validPeriods

instance (r : BudgetRequest) : Decidable (budgetSchemaValid r) := by
  unfold budgetSchemaValid
  infer_instance

/-- Budget creation, transcribed from `src/app/api/budgets/route.ts` (POST,
lines 126-231): schema validation, category existence when scoped, the
three-disjunct overlap `findFirst` against the same owner and category scope,
then the insert. -/
def budgetsPOST (s : BudgetState) (uid : Nat) (r : BudgetRequest) :
    Except ApiError BudgetState :=
  if ¬ budgetSchemaValid r then .error .invalidInput
  else
    let createStep : Except ApiError BudgetState :=
      match s.budgets.find? (fun b => b.userId == uid && b.categoryId == r.categoryId
          && decide (overlapsRange b.startDate b.endDate r.startDate r.endDate)) with
      | some _ => .error .conflict
      | none => .ok { s with
          budgets := s.budgets ++ [{
            id := s.nextBudgetId, userId := uid,
            name := r.name, amount := r.amount, period := r.period,
            categoryId := r.categoryId, startDate := r.startDate,
            endDate := r.endDate }],
          nextBudgetId := s.nextBudgetId + 1 }
    match r.categoryId with
    | some categoryId =>
      match s.categories.find? (fun c => c.id == categoryId && c.userId == uid) with
      | none => .error .categoryNotFound
      | some _ => createStep
    | none => createStep

/-- Body of a budget update request (every field optional, per the zod
`BudgetUpdateSchema`). -/
structure BudgetUpdateRequest where
  name : Option String
  amount : Option ℚ
  period : Option String
  categoryId : Option Nat
  startDate : Option ℤ
  endDate : Option ℤ
deriving DecidableEq

/-- The zod `BudgetUpdateSchema` constraints on the provided fields. -/
def budgetUpdateSchemaValid (r : BudgetUpdateRequest) : Prop :=
  (∀ n ∈ r.name, n ≠ "") ∧ (∀ a ∈ r.amount, 0 < a) ∧ (∀ p ∈ r.period, p ∈ validPeriods)

instance (r : BudgetUpdateRequest) : Decidable (budgetUpdateSchemaValid r) := by
  unfold budgetUpdateSchemaValid
  infer_instance

/-- Budget update, transcribed from `src/app/api/budgets/[id]/route.ts` (PUT,
lines 104-179): schema validation, budget lookup, category existence when
provided, then `prisma.budget.update` with the provided fields only.  There
is no overlap check on this path. -/
def budgetIdPUT (s : BudgetState) (uid budgetId : Nat) (r : BudgetUpdateRequest) :
    Except ApiError BudgetState :=
  if ¬ budgetUpdateSchemaValid r then .error .invalidInput
  else match s.budgets.find? (fun b => b.id == budgetId && b.userId == uid) with
  | none => .error .budgetNotFound
  | some _ =>
    let applyUpdate : Except ApiError BudgetState :=
      .ok { s with budgets := s.budgets.map (fun b =>
        if b.id = budgetId then
          { b with
            name := r.name.getD b.name,
            amount := r.amount.getD b.amount,
            period := r.period.getD b.period,
            categoryId := (match r.categoryId with
              | some c => some c
              | none => b.categoryId),
            startDate := r.startDate.getD b.startDate,
            endDate := r.endDate.getD b.endDate }
        else b) }
    match r.categoryId with
    | some categoryId =>
      match s.categories.find? (fun c => c.id == categoryId && c.userId == uid) with
      | none => .error .categoryNotFound
      | some _ => applyUpdate
    | none => applyUpdate

/-- No two distinct budgets of the same owner and category scope have
overlapping `[startDate, endDate]` windows. -/
def BudgetNoOverlap (bs : List Budget) : Prop :=
  ∀ b1 ∈ bs, ∀ b2 ∈ bs, b1.id ≠ b2.id → b1.userId = b2.userId →
    b1.categoryId = b2.categoryId →
    ¬ overlapsRange b1.startDate b1.endDate b2.startDate b2.endDate

/-- Budget-store well-formedness: windows are ordered and ids are below the
fresh-id counter. -/
def BudgetWF (s : BudgetState) : Prop :=
  (∀ b ∈ s.budgets, b.startDate ≤ b.endDate) ∧
  (∀ b ∈ s.budgets, b.id < s.nextBudgetId)

instance (bs : List Budget) : Decidable (BudgetNoOverlap bs) := by
  unfold BudgetNoOverlap
  infer_instance

theorem overlapsRange_symm {s1 e1 s2 e2 : ℤ} (h1 : s1 ≤ e1) (h2 : s2 ≤ e2) :
    overlapsRange s1 e1 s2 e2 ↔ overlapsRange s2 e2 s1 e1 := by
  unfold overlapsRange
  omega

/-! ## C4: the overlap invariant under budget operations -/

def c4BudgetA : Budget :=
  { id := 1, userId := 1, name := "June", amount := 100, period := "MONTHLY",
    categoryId := none, startDate := 0, endDate := 10 }

def c4BudgetB : Budget :=
  { id := 2, userId := 1, name := "July", amount := 100, period := "MONTHLY",
    categoryId := none, startDate := 20, endDate := 30 }

/-- Two unscoped, non-overlapping budgets of the same owner. -/
def c4State : BudgetState :=
  { budgets := [c4BudgetA, c4BudgetB], categories := [], nextBudgetId := 3 }

/-- An update moving budget B's start into budget A's window. -/
def c4UpdateRequest : BudgetUpdateRequest :=
  { name := none, amount := none, period := none, categoryId := none,
    startDate := some 5, endDate := none }

def c4After : BudgetState :=
  { budgets := [c4BudgetA, { c4BudgetB with startDate := 5 }],
    categories := [], nextBudgetId := 3 }

/-- C4 counterexample: the budget update handler performs no overlap check,
so an accepted update makes two same-scope windows overlap. -/
theorem budget_update_breaks_overlap_counterexample :
    BudgetNoOverlap c4State.budgets
      ∧ budgetIdPUT c4State 1 2 c4UpdateRequest = .ok c4After
      ∧ ¬ BudgetNoOverlap c4After.budgets := by
  refine ⟨by decide, ?_, by decide⟩
  simp [budgetIdPUT, c4State, c4UpdateRequest, c4After, c4BudgetA, c4BudgetB,
    budgetUpdateSchemaValid, List.find?]

/-- C4 (amended): budget creation rejects any schema-valid request whose
window overlaps an existing budget of the same owner and category scope with
a conflict error before any row is written, and a successful creation
preserves the no-overlap invariant on well-formed windows; the budget update
operation, however, performs no overlap check and can make two same-scope
windows overlap. -/
theorem budget_creation_overlap_guard (s : BudgetState) (uid : Nat)
    (r : BudgetRequest) (hvalid : budgetSchemaValid r)
    (hcat : ∀ categoryId, r.categoryId = some categoryId →
      (s.categories.find? (fun c => c.id == categoryId && c.userId == uid)).isSome) :
    ((∃ b ∈ s.budgets, b.userId = uid ∧ b.categoryId = r.categoryId ∧
        overlapsRange b.startDate b.endDate r.startDate r.endDate) →
      budgetsPOST s uid r = .error .conflict)
    ∧ (∀ s1, budgetsPOST s uid r = .ok s1 →
        BudgetWF s → BudgetNoOverlap s.budgets → r.startDate ≤ r.endDate →
        BudgetNoOverlap s1.budgets) := by
  have hfind_branch : ∀ res : Except ApiError BudgetState,
      budgetsPOST s uid r = res →
      (match s.budgets.find? (fun b => b.userId == uid && b.categoryId == r.categoryId
          && decide (overlapsRange b.startDate b.endDate r.startDate r.endDate)) with
        | some _ => (Except.error .conflict : Except ApiError BudgetState)
        | none => .ok { s with
            budgets := s.budgets ++ [{
              id := s.nextBudgetId, userId := uid,
              name := r.name, amount := r.amount, period := r.period,
              categoryId := r.categoryId, startDate := r.startDate,
              endDate := r.endDate }],
            nextBudgetId := s.nextBudgetId + 1 }) = res := by
    intro res h
    unfold budgetsPOST at h
    rw [if_neg (not_not_intro hvalid)] at h
    cases hrc : r.categoryId with
    | none =>
      rw [hrc] at h
      exact h
    | some categoryId =>
      rw [hrc] at h
      obtain ⟨c, hc⟩ := Option.isSome_iff_exists.1 (hcat categoryId hrc)
      simp only [hc] at h
      exact h
  constructor
  · rintro ⟨b, hbmem, hbu, hbc, hbo⟩
    have h := hfind_branch _ rfl
    cases hf : s.budgets.find? (fun b => b.userId == uid && b.categoryId == r.categoryId
        && decide (overlapsRange b.startDate b.endDate r.startDate r.endDate)) with
    | some b0 =>
      rw [hf] at h
      exact h.symm
    | none =>
      exfalso
      have hnp := List.find?_eq_none.1 hf b hbmem
      apply hnp
      simp only [Bool.and_eq_true, beq_iff_eq, decide_eq_true_eq]
      exact ⟨⟨hbu, hbc⟩, hbo⟩
  · intro s1 h1 hwf hno hre
    have h := hfind_branch _ h1
    cases hf : s.budgets.find? (fun b => b.userId == uid && b.categoryId == r.categoryId
        && decide (overlapsRange b.startDate b.endDate r.startDate r.endDate)) with
    | some b0 =>
      rw [hf] at h
      exact absurd h (by simp)
    | none =>
      rw [hf] at h
      have hs1 : s1 = { s with
          budgets := s.budgets ++ [{
            id := s.nextBudgetId, userId := uid,
            name := r.name, amount := r.amount, period := r.period,
            categoryId := r.categoryId, startDate := r.startDate,
            endDate := r.endDate }],
          nextBudgetId := s.nextBudgetId + 1 } := by
        simpa using h.symm
      subst hs1
      have hnp : ∀ b ∈ s.budgets, b.userId = uid → b.categoryId = r.categoryId →
          ¬ overlapsRange b.startDate b.endDate r.startDate r.endDate := by
        intro b hb h1b h2b h3b
        have := List.find?_eq_none.1 hf b hb
        apply this
        simp only [Bool.and_eq_true, beq_iff_eq, decide_eq_true_eq]
        exact ⟨⟨h1b, h2b⟩, h3b⟩
      intro b1 hb1 b2 hb2 hne hu hcid
      simp only [List.mem_append, List.mem_singleton] at hb1 hb2
      rcases hb1 with hb1 | hb1 <;> rcases hb2 with hb2 | hb2
      · exact hno b1 hb1 b2 hb2 hne hu hcid
      · subst hb2
        exact hnp b1 hb1 (by simpa using hu) (by simpa using hcid)
      · subst hb1
        intro hov
        have hov2 := (overlapsRange_symm hre (hwf.1 b2 hb2)).1 hov
        exact hnp b2 hb2 (by simpa using hu.symm) (by simpa using hcid.symm) hov2
      · subst hb1
        subst hb2
        exact absurd rfl hne

/-- An unscoped creation request whose window [8, 15] overlaps budget A's
window [0, 10]. -/
def c4CreateRequest : BudgetRequest :=
  { name := "August", amount := 100, period := "MONTHLY", categoryId := none,
    startDate := 8, endDate := 15 }

/-- Concrete instance: creating the overlapping budget is rejected with the
conflict error. -/
theorem budget_creation_overlap_guard_witness :
    budgetSchemaValid c4CreateRequest
      ∧ budgetsPOST c4State 1 c4CreateRequest = .error .conflict := by
  have hv : budgetSchemaValid c4CreateRequest := by
    refine ⟨by simp [c4CreateRequest], by norm_num [c4CreateRequest], ?_⟩
    simp [c4CreateRequest, validPeriods]
  refine ⟨hv, (budget_creation_overlap_guard c4State 1 c4CreateRequest hv ?_).1 ?_⟩
  · intro categoryId hc
    simp [c4CreateRequest] at hc
  · exact ⟨c4BudgetA, by simp [c4State], rfl, rfl, by decide⟩

/-! ## C9: the recommendation generator -/

/-- C9: the generator emits the overbudget warning (citing the count) exactly
when some budget has status `overbudget`; the near-limit info (citing the
count) exactly when some budget has status `warning`; the high-spending
warning exactly when the overall percentage exceeds 90; the success message
exactly when the percentage does not exceed 90 and is below 50 (so the two
are mutually exclusive); and the create-a-budget info exactly when there are
no active budgets.  The checks are otherwise independent and may co-occur. -/
theorem recommendations_characterization (budgets : List BudgetEval)
    (totalSpent totalBudget : ℚ) :
    (overbudgetRecommendation (budgets.filter (fun b => b.status == "overbudget")).length
        ∈ generateRecommendations budgets totalSpent totalBudget
      ↔ 0 < (budgets.filter (fun b => b.status == "overbudget")).length)
    ∧ (warningRecommendation (budgets.filter (fun b => b.status == "warning")).length
        ∈ generateRecommendations budgets totalSpent totalBudget
      ↔ 0 < (budgets.filter (fun b => b.status == "warning")).length)
    ∧ (highSpendingRecommendation ∈ generateRecommendations budgets totalSpent totalBudget
      ↔ (if totalBudget > 0 then totalSpent / totalBudget * 100 else 0) > 90)
    ∧ (goodManagementRecommendation ∈ generateRecommendations budgets totalSpent totalBudget
      ↔ (¬ (if totalBudget > 0 then totalSpent / totalBudget * 100 else 0) > 90
          ∧ (if totalBudget > 0 then totalSpent / totalBudget * 100 else 0) < 50))
    ∧ ¬ (highSpendingRecommendation ∈ generateRecommendations budgets totalSpent totalBudget
        ∧ goodManagementRecommendation ∈ generateRecommendations budgets totalSpent totalBudget)
    ∧ (firstBudgetRecommendation ∈ generateRecommendations budgets totalSpent totalBudget
      ↔ budgets = []) := by
  simp only [generateRecommendations]
  split_ifs with h1 h2 h3 h4 h5 <;>
    simp_all [List.mem_append, overbudgetRecommendation, warningRecommendation,
      highSpendingRecommendation, goodManagementRecommendation,
      firstBudgetRecommendation, Recommendation.mk.injEq]

end MoneyManagement
